import Mathlib

/-!
Verification of the CM1 offline-trajectory integrator.

A shallow embedding of `trajectory_test_scripts/forwards_traj_fast.ipynb`:
the windowed field extraction, the uniform smoothing filter, the regular-grid
linear interpolation with configurable fill value, and the explicit
time-stepping loop that advances parcel positions, converts height above sea
level to terrain-following grid coordinates, clips parcels at the ground and
records a tracked scalar.

Numeric model: machine floats are modelled as exact rationals; the IEEE
non-finite values (`nan`, and the infinities that numpy produces on division
by zero) are collapsed into a single marker `none` of `Option ℚ`.  All numpy
arithmetic used by the script maps non-finite operands to non-finite results,
which `none`-propagation reproduces; IEEE comparisons against `nan` are
`false`, which the bounds test of the interpolator reproduces by treating a
`none` coordinate as never out of bounds.
-/

/-- A float value: `none` models a non-finite value (`nan`), `some q` a real. -/
abbrev RVal : Type := Option ℚ

/-- Float addition: non-finite operands propagate. -/
def rAdd : RVal → RVal → RVal
  | some a, some b => some (a + b)
  | _, _ => none

/-- Float subtraction: non-finite operands propagate. -/
def rSub : RVal → RVal → RVal
  | some a, some b => some (a - b)
  | _, _ => none

/-- Float multiplication: non-finite operands propagate.  (The script never
multiplies `0 * inf`, the one case where this differs from IEEE.) -/
def rMul : RVal → RVal → RVal
  | some a, some b => some (a * b)
  | _, _ => none

/-- Float division: non-finite operands propagate, and division by zero
(which numpy turns into `inf` or `nan`, both non-finite) yields `none`. -/
def rDiv : RVal → RVal → RVal
  | some a, some b => if b = 0 then none else some (a / b)
  | _, _ => none

/-- `numpy.clip(min=0)` on one element: `nan` is left unchanged. -/
def rclip0 : RVal → RVal
  | none => none
  | some a => some (max a 0)

/-- The value is not negative: either the `nan` marker of a lost parcel
(IEEE comparisons against `nan` are all false, so `nan` is not `< 0`),
or a real number `≥ 0`. -/
def nonnegOrNaN : RVal → Prop
  | none => True
  | some q => 0 ≤ q

instance : DecidablePred nonnegOrNaN := fun v =>
  match v with
  | none => .isTrue trivial
  | some q => inferInstanceAs (Decidable (0 ≤ q))

/-! ## Regular-grid linear interpolation (`scipy.interpolate.interpn`)

The script always interpolates over axes `np.arange(0, n)`, i.e. the grid
points are `0, 1, …, n-1` on every axis.  `bounds_error=False` together with
a `fill_value` is used everywhere; scipy flags a query point as out of bounds
when some coordinate compares `< axis.min` or `> axis.max` — a `nan`
coordinate compares false on both, is not flagged, and then poisons the
arithmetic, so a `nan`-coordinate query returns `nan`, not the fill value. -/

/-- Out-of-bounds test for one axis of length `n` (grid `0 … n-1`):
true only for a real coordinate outside `[0, n-1]`; a `nan` coordinate is
never flagged (IEEE comparisons). -/
def outB (n : ℕ) : RVal → Bool
  | none => false
  | some q => decide (q < 0) || decide ((n : ℚ) - 1 < q)

/-- Cell index for a real in-range coordinate: `⌊q⌋` clamped to `n - 2`
(scipy clamps the found index so the upper grid edge uses the last cell). -/
def cellIdx (n : ℕ) (q : ℚ) : ℕ := min q.floor.toNat (n - 2)

/-- Trilinear interpolation of `f` at a real in-range point `(a, b, c)`
(axes `z`, `y`, `x` of lengths `nz`, `ny`, `nx`). -/
def triInterp (nz ny nx : ℕ) (f : ℕ → ℕ → ℕ → ℚ) (a b c : ℚ) : ℚ :=
  let iz := cellIdx nz a
  let iy := cellIdx ny b
  let ix := cellIdx nx c
  let dz := a - iz
  let dy := b - iy
  let dx := c - ix
  (1 - dz) * (1 - dy) * (1 - dx) * f iz iy ix
    + (1 - dz) * (1 - dy) * dx * f iz iy (ix + 1)
    + (1 - dz) * dy * (1 - dx) * f iz (iy + 1) ix
    + (1 - dz) * dy * dx * f iz (iy + 1) (ix + 1)
    + dz * (1 - dy) * (1 - dx) * f (iz + 1) iy ix
    + dz * (1 - dy) * dx * f (iz + 1) iy (ix + 1)
    + dz * dy * (1 - dx) * f (iz + 1) (iy + 1) ix
    + dz * dy * dx * f (iz + 1) (iy + 1) (ix + 1)

/-- The combined out-of-bounds test of a 3-D query. -/
def outQ3 (nz ny nx : ℕ) (q : RVal × RVal × RVal) : Bool :=
  outB nz q.1 || outB ny q.2.1 || outB nx q.2.2

/-- The in-bounds branch of a 3-D interpolation: a `nan` coordinate poisons
the arithmetic, real coordinates interpolate trilinearly. -/
def interpVal3 (nz ny nx : ℕ) (f : ℕ → ℕ → ℕ → ℚ)
    (q : RVal × RVal × RVal) : RVal :=
  match q with
  | (some a, some b, some c) => some (triInterp nz ny nx f a b c)
  | _ => none

/-- `interpolate.interpn((z, y, x), f, (qz, qy, qx), method='linear',
bounds_error=False, fill_value=fill)` over axes `arange(nz/ny/nx)`:
a real coordinate out of range on any axis returns the fill value; otherwise
a `nan` coordinate yields `nan`; otherwise trilinear interpolation. -/
def interpn3 (nz ny nx : ℕ) (f : ℕ → ℕ → ℕ → ℚ) (fill : RVal)
    (q : RVal × RVal × RVal) : RVal :=
  if outQ3 nz ny nx q then fill else interpVal3 nz ny nx f q

/-- Bilinear interpolation of a 2-D field at a real in-range point. -/
def biInterp (ny nx : ℕ) (f : ℕ → ℕ → ℚ) (b c : ℚ) : ℚ :=
  let iy := cellIdx ny b
  let ix := cellIdx nx c
  let dy := b - iy
  let dx := c - ix
  (1 - dy) * (1 - dx) * f iy ix
    + (1 - dy) * dx * f iy (ix + 1)
    + dy * (1 - dx) * f (iy + 1) ix
    + dy * dx * f (iy + 1) (ix + 1)

/-- The in-bounds branch of a 2-D interpolation. -/
def interpVal2 (ny nx : ℕ) (f : ℕ → ℕ → ℚ) (qy qx : RVal) : RVal :=
  match qy, qx with
  | some b, some c => some (biInterp ny nx f b c)
  | _, _ => none

/-- `interpolate.interpn((y, x), f, (qy, qx), …)` over axes `arange(ny/nx)`,
used for the surface-height field `zs`. -/
def interpn2 (ny nx : ℕ) (f : ℕ → ℕ → ℚ) (fill : RVal)
    (qy qx : RVal) : RVal :=
  if outB ny qy || outB nx qx then fill else interpVal2 ny nx f qy qx

/-! ## Smoothing (`scipy.ndimage.filters.uniform_filter(u, smooth)`)

A separable moving average of fixed width `smooth = 20` applied along each
axis in turn, with the ndimage default boundary mode `'reflect'`
(`d c b a | a b c d | d c b a`, period `2n`).  For an even width `s` the
ndimage window around index `i` is `[i - s/2, i + s/2 - 1]`. -/

/-- The fixed smoothing width (`smooth = 20` in the script). -/
def smoothWidth : ℕ := 20

/-- ndimage `'reflect'` boundary indexing into an axis of length `n`. -/
def reflectIdx (n : ℕ) (i : ℤ) : ℕ :=
  let m := (i % (2 * (n : ℤ))).toNat
  if m < n then m else 2 * n - 1 - m

/-- One axis of the uniform filter: the mean of `smoothWidth` reflected
samples, window `[i - s/2, i + s/2 - 1]`. -/
def uniform_filter1d (n : ℕ) (g : ℕ → ℚ) (i : ℕ) : ℚ :=
  ((Finset.range smoothWidth).sum
      (fun j => g (reflectIdx n ((i : ℤ) + (j : ℤ) - (smoothWidth / 2 : ℕ))))) /
    (smoothWidth : ℚ)

/-- `scipy.ndimage.filters.uniform_filter` on a 3-D field: the 1-D filter
applied along the `z`, then `y`, then `x` axis. -/
def uniform_filter (nz ny nx : ℕ) (f : ℕ → ℕ → ℕ → ℚ) : ℕ → ℕ → ℕ → ℚ :=
  let fz := fun z y x => uniform_filter1d nz (fun k => f k y x) z
  let fy := fun z y x => uniform_filter1d ny (fun j => fz z j x) y
  fun z y x => uniform_filter1d nx (fun i => fy z y i) x

/-- Pointwise equality of two 3-D fields on the domain `nz × ny × nx`. -/
def EqOn3 (nz ny nx : ℕ) (f g : ℕ → ℕ → ℕ → ℚ) : Prop :=
  ∀ z < nz, ∀ y < ny, ∀ x < nx, f z y x = g z y x

instance (nz ny nx : ℕ) (f g : ℕ → ℕ → ℕ → ℚ) :
    Decidable (EqOn3 nz ny nx f g) :=
  inferInstanceAs (Decidable (∀ z < nz, ∀ y < ny, ∀ x < nx, f z y x = g z y x))

/-! ## Field-window bounds

At every step the script computes per-axis bounds from the current parcel
positions:
`xmin = np.int(np.nanmin(xpos[t]) - 2); xmin = 0 if xmin < 0 else xmin` and
`xmax = np.int(np.nanmax(xpos[t]) + 2); xmax = nx if xmax > nx else xmax`.
`np.nanmin` ignores `nan` entries and returns `nan` when every entry is
`nan`, in which case `np.int(nan)` raises — modelled by `none`.
`np.int` truncates toward zero. -/

/-- `np.nanmin` over a list of float values: the minimum of the real entries,
`none` (= `nan`, on which `np.int` subsequently raises) when there are none. -/
def nanmin (l : List RVal) : Option ℚ :=
  l.foldr
    (fun v acc =>
      match v, acc with
      | some q, some m => some (min q m)
      | some q, none => some q
      | none, acc => acc)
    none

/-- `np.nanmax` over a list of float values. -/
def nanmax (l : List RVal) : Option ℚ :=
  l.foldr
    (fun v acc =>
      match v, acc with
      | some q, some m => some (max q m)
      | some q, none => some q
      | none, acc => acc)
    none

/-- `np.int` applied to a real value: truncation toward zero. -/
def npInt (q : ℚ) : ℤ := if q < 0 then ⌈q⌉ else ⌊q⌋

/-- Lower window bound of one axis:
`v = np.int(nanmin - 2); 0 if v < 0 else v`.  `none` when every position is
`nan` (the script would raise converting `nan` to an integer). -/
def loBound (vals : List RVal) : Option ℤ :=
  (nanmin vals).map (fun m => let v := npInt (m - 2); if v < 0 then 0 else v)

/-- Upper window bound of one axis of length `dim`:
`v = np.int(nanmax + 2); dim if v > dim else v`. -/
def hiBound (dim : ℕ) (vals : List RVal) : Option ℤ :=
  (nanmax vals).map
    (fun m => let v := npInt (m + 2); if (dim : ℤ) < v then (dim : ℤ) else v)

/-- The six per-step window bounds. -/
structure Bounds where
  xmin : ℤ
  xmax : ℤ
  ymin : ℤ
  ymax : ℤ
  zmin : ℤ
  zmax : ℤ
deriving DecidableEq, Repr

/-- Lower bound of one axis as the spec states it:
`lo = clamp(floor(min(valid positions)) - margin, 0, dim-1)` with margin 2. -/
def specLoBound (dim : ℕ) (vals : List RVal) : Option ℤ :=
  (nanmin vals).map (fun m => max 0 (min (⌊m⌋ - 2) ((dim : ℤ) - 1)))

/-- Upper bound of one axis as the spec states it:
`hi = clamp(ceil(max(valid positions)) + margin, 0, dim)` with margin 2. -/
def specHiBound (dim : ℕ) (vals : List RVal) : Option ℤ :=
  (nanmax vals).map (fun m => max 0 (min (⌈m⌉ + 2) (dim : ℤ)))

/-- The full-domain window the spec claims is returned for an all-`nan`
(degenerate) swarm. -/
def specFullWindow (nx ny nz : ℕ) : Bounds :=
  ⟨0, nx, 0, ny, 0, nz⟩

/-! ## The integrator

State arrays are modelled as functions `time-index → parcel-index → RVal`;
the seed grid `(num_seeds_z, num_seeds_y)` is flattened to a single parcel
index exactly as the script flattens it before every interpolation call.
All arrays are zero-initialised (`np.zeros`) and slices are overwritten in
place.  A step can fail (`none`): with an all-`nan` position slice
`np.nanmin` returns `nan` and `np.int(nan)` raises. -/

/-- The model-output and trajectory configuration of the script.  Field
providers take a simulation time index (an integer: the final-slice fetch
can produce a negative python index) and `z, y, x` grid indices. -/
structure Config where
  nx : ℕ
  ny : ℕ
  nz : ℕ
  /-- `num_seeds_z * num_seeds_y`, the flattened parcel count. -/
  num_seeds : ℕ
  uinterp : ℤ → ℕ → ℕ → ℕ → ℚ
  vinterp : ℤ → ℕ → ℕ → ℕ → ℚ
  winterp : ℤ → ℕ → ℕ → ℕ → ℚ
  /-- `getattr(ds, var_name1)`, the tracked scalar field. -/
  var_field : ℤ → ℕ → ℕ → ℕ → ℚ
  /-- Surface height (`zs`), all zero when the output has no terrain. -/
  zs : ℕ → ℕ → ℚ
  /-- Vertical grid spacing: `nz - 1` levels between consecutive z levels. -/
  vert_resolution : ℕ → ℕ → ℕ → ℚ
  hor_resolution : ℚ
  /-- Output time step length in seconds, already multiplied by `incre`. -/
  time_step_length : ℚ
  start_time_step : ℕ
  incre : ℕ
  time_steps : ℕ
  staggered : Bool

/-- The recorded trajectory arrays, each `time-index → parcel → value`. -/
structure TrajState where
  xpos : ℕ → ℕ → RVal
  ypos : ℕ → ℕ → RVal
  zpos : ℕ → ℕ → RVal
  zpos_heightASL : ℕ → ℕ → RVal
  zpos_vert_res : ℕ → ℕ → RVal
  variable1 : ℕ → ℕ → RVal

/-- One recorded time slice as a list over the parcels. -/
def sliceVals (A : ℕ → ℕ → RVal) (t N : ℕ) : List RVal :=
  (List.range N).map (A t)

/-- The six window bounds computed at the top of each loop iteration; `none`
when a `nanmin`/`nanmax` is `nan` (all parcels lost) and `np.int` raises. -/
def windowBounds (cfg : Config) (s : TrajState) (t : ℕ) : Option Bounds := do
  let xmin ← loBound (sliceVals s.xpos t cfg.num_seeds)
  let xmax ← hiBound cfg.nx (sliceVals s.xpos t cfg.num_seeds)
  let ymin ← loBound (sliceVals s.ypos t cfg.num_seeds)
  let ymax ← hiBound cfg.ny (sliceVals s.ypos t cfg.num_seeds)
  let zmin ← loBound (sliceVals s.zpos t cfg.num_seeds)
  let zmax ← hiBound cfg.nz (sliceVals s.zpos t cfg.num_seeds)
  pure ⟨xmin, xmax, ymin, ymax, zmin, zmax⟩

/-- Window axis length `len(x_fast) = xmax - xmin`. -/
def xdim (b : Bounds) : ℕ := (b.xmax - b.xmin).toNat

/-- Window axis length `len(y_fast) = ymax - ymin`. -/
def ydim (b : Bounds) : ℕ := (b.ymax - b.ymin).toNat

/-- Window axis length `len(z_fast) = zmax - zmin`. -/
def zdim (b : Bounds) : ℕ := (b.zmax - b.zmin).toNat

/-- The simulation time index fetched inside the loop at integration step
`t`: `start_time_step + t * incre`. -/
def loopFetchTime (cfg : Config) (t : ℕ) : ℤ :=
  (cfg.start_time_step : ℤ) + (t : ℤ) * (cfg.incre : ℤ)

/-- The windowed and smoothed `u` field of step `t`. -/
def u_field (cfg : Config) (t : ℕ) (b : Bounds) : ℕ → ℕ → ℕ → ℚ :=
  uniform_filter (zdim b) (ydim b) (xdim b)
    (fun k j i =>
      cfg.uinterp (loopFetchTime cfg t)
        (b.zmin.toNat + k) (b.ymin.toNat + j) (b.xmin.toNat + i))

/-- The windowed and smoothed `v` field of step `t`. -/
def v_field (cfg : Config) (t : ℕ) (b : Bounds) : ℕ → ℕ → ℕ → ℚ :=
  uniform_filter (zdim b) (ydim b) (xdim b)
    (fun k j i =>
      cfg.vinterp (loopFetchTime cfg t)
        (b.zmin.toNat + k) (b.ymin.toNat + j) (b.xmin.toNat + i))

/-- The windowed and smoothed `w` field of step `t`. -/
def w_field (cfg : Config) (t : ℕ) (b : Bounds) : ℕ → ℕ → ℕ → ℚ :=
  uniform_filter (zdim b) (ydim b) (xdim b)
    (fun k j i =>
      cfg.winterp (loopFetchTime cfg t)
        (b.zmin.toNat + k) (b.ymin.toNat + j) (b.xmin.toNat + i))

/-- The windowed and smoothed tracked-scalar field of step `t`. -/
def var1_field (cfg : Config) (t : ℕ) (b : Bounds) : ℕ → ℕ → ℕ → ℚ :=
  uniform_filter (zdim b) (ydim b) (xdim b)
    (fun k j i =>
      cfg.var_field (loopFetchTime cfg t)
        (b.zmin.toNat + k) (b.ymin.toNat + j) (b.xmin.toNat + i))

/-- Window-local x coordinate `xloc = xpos[t] - xmin`. -/
def xloc (s : TrajState) (t : ℕ) (b : Bounds) (p : ℕ) : RVal :=
  rSub (s.xpos t p) (some (b.xmin : ℚ))

/-- Window-local staggered x coordinate `(xpos[t] + 0.5) - xmin`. -/
def xloc_stag (s : TrajState) (t : ℕ) (b : Bounds) (p : ℕ) : RVal :=
  rSub (rAdd (s.xpos t p) (some (1 / 2 : ℚ))) (some (b.xmin : ℚ))

/-- Window-local y coordinate `yloc = ypos[t] - ymin`. -/
def yloc (s : TrajState) (t : ℕ) (b : Bounds) (p : ℕ) : RVal :=
  rSub (s.ypos t p) (some (b.ymin : ℚ))

/-- Window-local staggered y coordinate `(ypos[t] + 0.5) - ymin`. -/
def yloc_stag (s : TrajState) (t : ℕ) (b : Bounds) (p : ℕ) : RVal :=
  rSub (rAdd (s.ypos t p) (some (1 / 2 : ℚ))) (some (b.ymin : ℚ))

/-- Window-local z coordinate `zloc = zpos[t] - zmin`. -/
def zloc (s : TrajState) (t : ℕ) (b : Bounds) (p : ℕ) : RVal :=
  rSub (s.zpos t p) (some (b.zmin : ℚ))

/-- Window-local staggered z coordinate `(zpos[t] + 0.5) - zmin`. -/
def zloc_stag (s : TrajState) (t : ℕ) (b : Bounds) (p : ℕ) : RVal :=
  rSub (rAdd (s.zpos t p) (some (1 / 2 : ℚ))) (some (b.zmin : ℚ))

/-- Query point for `u`: staggered in x when `staggered == 'Y'`. -/
def coord_u (cfg : Config) (s : TrajState) (t : ℕ) (b : Bounds) (p : ℕ) :
    RVal × RVal × RVal :=
  if cfg.staggered then (zloc s t b p, yloc s t b p, xloc_stag s t b p)
  else (zloc s t b p, yloc s t b p, xloc s t b p)

/-- Query point for `v`: staggered in y when `staggered == 'Y'`. -/
def coord_v (cfg : Config) (s : TrajState) (t : ℕ) (b : Bounds) (p : ℕ) :
    RVal × RVal × RVal :=
  if cfg.staggered then (zloc s t b p, yloc_stag s t b p, xloc s t b p)
  else (zloc s t b p, yloc s t b p, xloc s t b p)

/-- Query point for `w`: staggered in z when `staggered == 'Y'`. -/
def coord_w (cfg : Config) (s : TrajState) (t : ℕ) (b : Bounds) (p : ℕ) :
    RVal × RVal × RVal :=
  if cfg.staggered then (zloc_stag s t b p, yloc s t b p, xloc s t b p)
  else (zloc s t b p, yloc s t b p, xloc s t b p)

/-- Window-local scalar query point `coord_fast = (zloc, yloc, xloc)`. -/
def coord_fast (s : TrajState) (t : ℕ) (b : Bounds) (p : ℕ) :
    RVal × RVal × RVal :=
  (zloc s t b p, yloc s t b p, xloc s t b p)

/-- Global scalar query point
`coord = (zloc + zmin, yloc + ymin, xloc + xmin)`. -/
def coord_glob (s : TrajState) (t : ℕ) (b : Bounds) (p : ℕ) :
    RVal × RVal × RVal :=
  (rAdd (zloc s t b p) (some (b.zmin : ℚ)),
   rAdd (yloc s t b p) (some (b.ymin : ℚ)),
   rAdd (xloc s t b p) (some (b.xmin : ℚ)))

/-- Interpolated `u` at parcel `p` (fill `np.nan`). -/
def u_samp (cfg : Config) (s : TrajState) (t : ℕ) (b : Bounds) (p : ℕ) :
    RVal :=
  interpn3 (zdim b) (ydim b) (xdim b) (u_field cfg t b) none
    (coord_u cfg s t b p)

/-- Interpolated `v` at parcel `p` (fill `np.nan`). -/
def v_samp (cfg : Config) (s : TrajState) (t : ℕ) (b : Bounds) (p : ℕ) :
    RVal :=
  interpn3 (zdim b) (ydim b) (xdim b) (v_field cfg t b) none
    (coord_v cfg s t b p)

/-- Interpolated `w` at parcel `p` (fill `0`). -/
def w_samp (cfg : Config) (s : TrajState) (t : ℕ) (b : Bounds) (p : ℕ) :
    RVal :=
  interpn3 (zdim b) (ydim b) (xdim b) (w_field cfg t b) (some 0)
    (coord_w cfg s t b p)

/-- Interpolated tracked scalar at parcel `p` (fill `np.nan`), queried at
the window-local time-`t` position `coord_fast`. -/
def var1_samp (cfg : Config) (s : TrajState) (t : ℕ) (b : Bounds) (p : ℕ) :
    RVal :=
  interpn3 (zdim b) (ydim b) (xdim b) (var1_field cfg t b) none
    (coord_fast s t b p)

/-- Interpolated vertical grid spacing
`interpn((z[:-1], y, x), vert_resolution, coord, fill_value=np.nan)`:
global axes, with the vertical axis truncated to `nz - 1` levels. -/
def vres_samp (cfg : Config) (s : TrajState) (t : ℕ) (b : Bounds) (p : ℕ) :
    RVal :=
  interpn3 (cfg.nz - 1) cfg.ny cfg.nx cfg.vert_resolution none
    (coord_glob s t b p)

/-- New x position
`xpos[t+1] = xpos[t] + interpn(u) * time_step_length / hor_resolution`. -/
def xpos_next (cfg : Config) (s : TrajState) (t : ℕ) (b : Bounds) (p : ℕ) :
    RVal :=
  rAdd (s.xpos t p)
    (rDiv (rMul (u_samp cfg s t b p) (some cfg.time_step_length))
      (some cfg.hor_resolution))

/-- New y position
`ypos[t+1] = ypos[t] + interpn(v) * time_step_length / hor_resolution`. -/
def ypos_next (cfg : Config) (s : TrajState) (t : ℕ) (b : Bounds) (p : ℕ) :
    RVal :=
  rAdd (s.ypos t p)
    (rDiv (rMul (v_samp cfg s t b p) (some cfg.time_step_length))
      (some cfg.hor_resolution))

/-- New height above sea level
`zpos_heightASL[t+1] = zpos_heightASL[t] + interpn(w) * time_step_length`. -/
def zpos_heightASL_next (cfg : Config) (s : TrajState) (t : ℕ) (b : Bounds)
    (p : ℕ) : RVal :=
  rAdd (s.zpos_heightASL t p)
    (rMul (w_samp cfg s t b p) (some cfg.time_step_length))

/-- Interpolated surface height at the old horizontal position
`zs1 = interpn((y, x), zs, (ypos[t], xpos[t]), fill_value=np.nan)`. -/
def zs1_samp (cfg : Config) (s : TrajState) (t : ℕ) (p : ℕ) : RVal :=
  interpn2 cfg.ny cfg.nx cfg.zs none (s.ypos t p) (s.xpos t p)

/-- Interpolated surface height at the new horizontal position
`zs2 = interpn((y, x), zs, (ypos[t+1], xpos[t+1]), fill_value=np.nan)`. -/
def zs2_samp (cfg : Config) (s : TrajState) (t : ℕ) (b : Bounds) (p : ℕ) :
    RVal :=
  interpn2 cfg.ny cfg.nx cfg.zs none
    (ypos_next cfg s t b p) (xpos_next cfg s t b p)

/-- New terrain-following grid coordinate
`zpos[t+1] = zpos[t] + ((zpos_heightASL_change - zs_change) /
zpos_vert_res[t])` with `zs_change = zs2 - zs1` and
`zpos_heightASL_change = zpos_heightASL[t+1] - zpos_heightASL[t]`. -/
def zpos_next (cfg : Config) (s : TrajState) (t : ℕ) (b : Bounds) (p : ℕ) :
    RVal :=
  rAdd (s.zpos t p)
    (rDiv
      (rSub
        (rSub (zpos_heightASL_next cfg s t b p) (s.zpos_heightASL t p))
        (rSub (zs2_samp cfg s t b p) (zs1_samp cfg s t p)))
      (vres_samp cfg s t b p))

/-- The state after the body of loop iteration `t` with window bounds `b`:
slice `t+1` of the positions and heights is written, slice `t` of the
vertical spacing and of the tracked scalar is written, and the whole
`zpos` and `zpos_heightASL` series are clipped at 0. -/
def buildStep (cfg : Config) (s : TrajState) (t : ℕ) (b : Bounds) :
    TrajState where
  xpos := fun t' p => if t' = t + 1 then xpos_next cfg s t b p else s.xpos t' p
  ypos := fun t' p => if t' = t + 1 then ypos_next cfg s t b p else s.ypos t' p
  zpos := fun t' p =>
    rclip0 (if t' = t + 1 then zpos_next cfg s t b p else s.zpos t' p)
  zpos_heightASL := fun t' p =>
    rclip0
      (if t' = t + 1 then zpos_heightASL_next cfg s t b p
       else s.zpos_heightASL t' p)
  zpos_vert_res := fun t' p =>
    if t' = t then vres_samp cfg s t b p else s.zpos_vert_res t' p
  variable1 := fun t' p =>
    if t' = t then var1_samp cfg s t b p else s.variable1 t' p

/-- One loop iteration: compute the window bounds (failing when all
positions of the slice are `nan`) and run the loop body. -/
def step (cfg : Config) (s : TrajState) (t : ℕ) : Option TrajState :=
  (windowBounds cfg s t).map (fun b => buildStep cfg s t b)

/-- Run loop iterations `t0, t0 + 1, …, t0 + n - 1` in order; the script
itself runs `t` from `0` to `time_steps - 2`. -/
def runFrom (cfg : Config) (s : TrajState) (t0 : ℕ) : ℕ → Option TrajState
  | 0 => some s
  | n + 1 => (runFrom cfg s t0 n).bind (fun s' => step cfg s' (t0 + n))

/-- The simulation time index used by the final-slice scalar fetch:
`var1 = getattr(ds, var_name1)[start_time_step - t]` with
`t = time_steps - 1`. -/
def finalFetchTime (cfg : Config) : ℤ :=
  (cfg.start_time_step : ℤ) - ((cfg.time_steps - 1 : ℕ) : ℤ)

/-- The "Get variable data for final time step" cell: samples the scalar at
the final-slice positions shifted by `-0.5` onto the scalar grid, over the
full (unwindowed, unsmoothed) axes, and records it at `t = time_steps - 1`. -/
def finalSample (cfg : Config) (s : TrajState) : TrajState :=
  let t := cfg.time_steps - 1
  { s with
    variable1 := fun t' p =>
      if t' = t then
        interpn3 cfg.nz cfg.ny cfg.nx
          (fun k j i => cfg.var_field (finalFetchTime cfg) k j i) none
          (rSub (s.zpos t p) (some (1 / 2 : ℚ)),
           rSub (s.ypos t p) (some (1 / 2 : ℚ)),
           rSub (s.xpos t p) (some (1 / 2 : ℚ)))
      else s.variable1 t' p }

/-- `xpos` of an optional state: a failed run yields no value. -/
def optXpos (os : Option TrajState) (t p : ℕ) : RVal :=
  match os with
  | none => none
  | some st => st.xpos t p

/-- `ypos` of an optional state. -/
def optYpos (os : Option TrajState) (t p : ℕ) : RVal :=
  match os with
  | none => none
  | some st => st.ypos t p

/-- `zpos` of an optional state. -/
def optZpos (os : Option TrajState) (t p : ℕ) : RVal :=
  match os with
  | none => none
  | some st => st.zpos t p

/-- `zpos_heightASL` of an optional state. -/
def optZASL (os : Option TrajState) (t p : ℕ) : RVal :=
  match os with
  | none => none
  | some st => st.zpos_heightASL t p

/-- `variable1` of an optional state. -/
def optVar1 (os : Option TrajState) (t p : ℕ) : RVal :=
  match os with
  | none => none
  | some st => st.variable1 t p

/-! ## Concrete instances

A small synthetic domain (the 10×10×5 scenario of the spec's testable
properties): uniform horizontal resolution 1000 m, uniform vertical spacing
500 m, zero terrain, zero velocity, with one parcel. -/

/-- All-zero initial arrays (`np.zeros`). -/
def zeroState : TrajState where
  xpos := fun _ _ => some 0
  ypos := fun _ _ => some 0
  zpos := fun _ _ => some 0
  zpos_heightASL := fun _ _ => some 0
  zpos_vert_res := fun _ _ => some 0
  variable1 := fun _ _ => some 0

/-- 10×10×5 zero-velocity flat-terrain domain, one parcel, unstaggered. -/
def cfgA : Config where
  nx := 10
  ny := 10
  nz := 5
  num_seeds := 1
  uinterp := fun _ _ _ _ => 0
  vinterp := fun _ _ _ _ => 0
  winterp := fun _ _ _ _ => 0
  var_field := fun _ _ _ _ => 0
  zs := fun _ _ => 0
  vert_resolution := fun _ _ _ => 500
  hor_resolution := 1000
  time_step_length := 1000
  start_time_step := 300
  incre := 5
  time_steps := 3
  staggered := false

/-- Seed slice: one parcel at `(x, y, z) = (9.5, 5, 2)` (near the upper x
boundary, the spec's out-of-window scenario) at 1000 m above sea level. -/
def seedA : TrajState where
  xpos := fun t _ => if t = 0 then some (19 / 2) else some 0
  ypos := fun t _ => if t = 0 then some 5 else some 0
  zpos := fun t _ => if t = 0 then some 2 else some 0
  zpos_heightASL := fun t _ => if t = 0 then some 1000 else some 0
  zpos_vert_res := fun _ _ => some 0
  variable1 := fun _ _ => some 0

/-- The window bounds the script computes for `seedA` at `t = 0`. -/
def bA : Bounds := ⟨7, 10, 3, 7, 0, 4⟩

/-- Seed slice: one parcel at `(x, y, z) = (9.5, 5, 3.5)`; its grid height
lies strictly above `nz - 2 = 3`, inside the velocity domain (z axis up to
`nz - 1 = 4`) but above the top level of the `nz - 1`-level spacing field. -/
def seedB : TrajState where
  xpos := fun t _ => if t = 0 then some (19 / 2) else some 0
  ypos := fun t _ => if t = 0 then some 5 else some 0
  zpos := fun t _ => if t = 0 then some (7 / 2) else some 0
  zpos_heightASL := fun t _ => if t = 0 then some 1750 else some 0
  zpos_vert_res := fun _ _ => some 0
  variable1 := fun _ _ => some 0

/-- The window bounds the script computes for `seedB` at `t = 0`. -/
def bB : Bounds := ⟨7, 10, 3, 7, 1, 5⟩

/-- A state whose slice 0 is all-`nan`: every parcel already lost. -/
def seedC : TrajState where
  xpos := fun t _ => if t = 0 then none else some 0
  ypos := fun t _ => if t = 0 then none else some 0
  zpos := fun t _ => if t = 0 then none else some 0
  zpos_heightASL := fun t _ => if t = 0 then none else some 0
  zpos_vert_res := fun _ _ => some 0
  variable1 := fun _ _ => some 0

/-- The notebook's own run configuration: `time_steps = 50`, `incre = 5`,
`start_time_step = 300`. -/
def nbCfg : Config :=
  { cfgA with time_steps := 50, num_seeds := 30 }

/-! Concrete 3-D fields for the smoothing claims. -/

/-- A 1×1×3 field with values `0, 0, 1` along x. -/
def fieldF3 : ℕ → ℕ → ℕ → ℚ := fun _ _ x => if x = 2 then 1 else 0

/-- The uniform filter of `fieldF3` on `1 × 1 × 3`, computed by hand:
each window of 20 reflected samples hits three full periods of the length-6
reflection pattern plus two extra samples. -/
def fieldG3 : ℕ → ℕ → ℕ → ℚ := fun _ _ x =>
  if x = 0 then 2 / 5 else if x = 1 then 7 / 20 else 3 / 10

/-- A non-constant 1×1×2 field with values `0, 1` along x. -/
def fieldF2 : ℕ → ℕ → ℕ → ℚ := fun _ _ x => if x = 1 then 1 else 0

/-- The constant field `1/2`: the uniform filter of `fieldF2` on `1 × 1 × 2`
(every 20-sample reflected window hits each of the two cells 10 times). -/
def fieldH2 : ℕ → ℕ → ℕ → ℚ := fun _ _ _ => 1 / 2

/-! ## Basic lemmas about the float model -/

@[simp]
theorem rAdd_none_left (v : RVal) : rAdd none v = none := by cases v <;> rfl

@[simp]
theorem rAdd_none_right (v : RVal) : rAdd v none = none := by cases v <;> rfl

@[simp]
theorem rSub_none_left (v : RVal) : rSub none v = none := by cases v <;> rfl

@[simp]
theorem rSub_none_right (v : RVal) : rSub v none = none := by cases v <;> rfl

@[simp]
theorem rMul_none_left (v : RVal) : rMul none v = none := by cases v <;> rfl

@[simp]
theorem rMul_none_right (v : RVal) : rMul v none = none := by cases v <;> rfl

@[simp]
theorem rDiv_none_left (v : RVal) : rDiv none v = none := by cases v <;> rfl

@[simp]
theorem rDiv_none_right (v : RVal) : rDiv v none = none := by cases v <;> rfl

@[simp]
theorem rAdd_some_zero (v : RVal) : rAdd v (some 0) = v := by
  cases v <;> simp [rAdd]

@[simp]
theorem rclip0_none : rclip0 none = none := rfl

@[simp]
theorem rclip0_idem (v : RVal) : rclip0 (rclip0 v) = rclip0 v := by
  cases v <;> simp [rclip0, max_assoc]

theorem nonnegOrNaN_rclip0 (v : RVal) : nonnegOrNaN (rclip0 v) := by
  cases v with
  | none => trivial
  | some a => exact le_max_right a 0

theorem interpn3_out {nz ny nx : ℕ} {f : ℕ → ℕ → ℕ → ℚ} {fill : RVal}
    {q : RVal × RVal × RVal} (h : outQ3 nz ny nx q = true) :
    interpn3 nz ny nx f fill q = fill := by
  rw [interpn3, if_pos h]

@[simp]
theorem interpn3_nan (nz ny nx : ℕ) (f : ℕ → ℕ → ℕ → ℚ) (fill : RVal) :
    interpn3 nz ny nx f fill (none, none, none) = none := rfl

@[simp]
theorem interpn2_nan (ny nx : ℕ) (f : ℕ → ℕ → ℚ) (fill : RVal) :
    interpn2 ny nx f fill none none = none := rfl

theorem rSub_rAdd_cancel (v : RVal) (m : ℚ) :
    rAdd (rSub v (some m)) (some m) = v := by
  cases v <;> simp [rSub, rAdd]

/-! ## Lemmas about one integration step -/

theorem step_eq_some {cfg : Config} {s : TrajState} {t : ℕ} {b : Bounds}
    (hb : windowBounds cfg s t = some b) :
    step cfg s t = some (buildStep cfg s t b) := by
  rw [step, hb, Option.map_some']

/-- The global scalar query point is the parcel's time-`t` position: the
script subtracts the window offset and adds it back. -/
theorem coord_glob_eq (s : TrajState) (t : ℕ) (b : Bounds) (p : ℕ) :
    coord_glob s t b p = (s.zpos t p, s.ypos t p, s.xpos t p) := by
  rw [coord_glob, zloc, yloc, xloc, rSub_rAdd_cancel, rSub_rAdd_cancel,
    rSub_rAdd_cancel]

/-- Slices other than `t + 1` of the position/height arrays are not
overwritten by step `t` (the heights are re-clipped). -/
theorem step_preserve {cfg : Config} {s : TrajState} {j : ℕ} {b : Bounds}
    (hb : windowBounds cfg s j = some b) (t' p : ℕ) (hne : t' ≠ j + 1) :
    optXpos (step cfg s j) t' p = s.xpos t' p ∧
    optYpos (step cfg s j) t' p = s.ypos t' p ∧
    optZpos (step cfg s j) t' p = rclip0 (s.zpos t' p) ∧
    optZASL (step cfg s j) t' p = rclip0 (s.zpos_heightASL t' p) := by
  rw [step_eq_some hb]
  exact ⟨by simp [optXpos, buildStep, hne], by simp [optYpos, buildStep, hne],
    by simp [optZpos, buildStep, hne], by simp [optZASL, buildStep, hne]⟩

/-- Slices other than `j` of the scalar series are not overwritten. -/
theorem step_preserve_var1 {cfg : Config} {s : TrajState} {j : ℕ}
    {b : Bounds} (hb : windowBounds cfg s j = some b) (t' p : ℕ)
    (hne : t' ≠ j) :
    optVar1 (step cfg s j) t' p = s.variable1 t' p := by
  rw [step_eq_some hb]; simp [optVar1, buildStep, hne]

/-- A parcel whose position slice is already `nan` stays `nan`: every
update of step `j` adds or multiplies with a `nan`-coordinate
interpolation result. -/
theorem lost_step {cfg : Config} {s : TrajState} {j : ℕ} {b : Bounds}
    (hb : windowBounds cfg s j = some b) (p : ℕ)
    (hx : s.xpos j p = none) (hy : s.ypos j p = none)
    (hz : s.zpos j p = none) :
    optXpos (step cfg s j) (j + 1) p = none ∧
    optYpos (step cfg s j) (j + 1) p = none ∧
    optZpos (step cfg s j) (j + 1) p = none ∧
    optZASL (step cfg s j) (j + 1) p = none ∧
    optVar1 (step cfg s j) j p = none := by
  have hzl : zloc s j b p = none := by rw [zloc, hz, rSub_none_left]
  have hyl : yloc s j b p = none := by rw [yloc, hy, rSub_none_left]
  have hxl : xloc s j b p = none := by rw [xloc, hx, rSub_none_left]
  have hw : w_samp cfg s j b p = none := by
    rw [w_samp, coord_w]
    cases hst : cfg.staggered <;>
      simp [hst, hzl, hyl, hxl, zloc_stag, hz, rAdd_none_left, rSub_none_left]
  have hASL : zpos_heightASL_next cfg s j b p = none := by
    rw [zpos_heightASL_next, hw, rMul_none_left, rAdd_none_right]
  have hvar : var1_samp cfg s j b p = none := by
    rw [var1_samp, coord_fast, hzl, hyl, hxl, interpn3_nan]
  rw [step_eq_some hb]
  refine ⟨?_, ?_, ?_, ?_, ?_⟩
  · simp [optXpos, buildStep, xpos_next, hx]
  · simp [optYpos, buildStep, ypos_next, hy]
  · simp [optZpos, buildStep, zpos_next, hz]
  · simp [optZASL, buildStep, hASL]
  · simp [optVar1, buildStep, hvar]

/-- A parcel whose (unstaggered) query point is out of the window at step
`t` gets `nan` positions and scalar, while its height above sea level is
only re-clipped: the vertical-velocity fill is `0`, not `nan`. -/
theorem outOfWindow_step {cfg : Config} {s : TrajState} {t : ℕ} {b : Bounds}
    (hsf : cfg.staggered = false) (hb : windowBounds cfg s t = some b)
    (p : ℕ)
    (hout : outQ3 (zdim b) (ydim b) (xdim b) (coord_fast s t b p) = true) :
    optXpos (step cfg s t) (t + 1) p = none ∧
    optYpos (step cfg s t) (t + 1) p = none ∧
    optZpos (step cfg s t) (t + 1) p = none ∧
    optZASL (step cfg s t) (t + 1) p = rclip0 (s.zpos_heightASL t p) ∧
    optVar1 (step cfg s t) t p = none := by
  have hcu : coord_u cfg s t b p = coord_fast s t b p := by
    rw [coord_u, hsf, coord_fast]; rfl
  have hcv : coord_v cfg s t b p = coord_fast s t b p := by
    rw [coord_v, hsf, coord_fast]; rfl
  have hcw : coord_w cfg s t b p = coord_fast s t b p := by
    rw [coord_w, hsf, coord_fast]; rfl
  have hu : u_samp cfg s t b p = none := by
    rw [u_samp, hcu]; exact interpn3_out hout
  have hv : v_samp cfg s t b p = none := by
    rw [v_samp, hcv]; exact interpn3_out hout
  have hw : w_samp cfg s t b p = some 0 := by
    rw [w_samp, hcw]; exact interpn3_out hout
  have hvar : var1_samp cfg s t b p = none := by
    rw [var1_samp]; exact interpn3_out hout
  have hxn : xpos_next cfg s t b p = none := by
    rw [xpos_next, hu, rMul_none_left, rDiv_none_left, rAdd_none_right]
  have hyn : ypos_next cfg s t b p = none := by
    rw [ypos_next, hv, rMul_none_left, rDiv_none_left, rAdd_none_right]
  have hASL : zpos_heightASL_next cfg s t b p = s.zpos_heightASL t p := by
    rw [zpos_heightASL_next, hw]
    simp [rMul]
  have hzn : zpos_next cfg s t b p = none := by
    rw [zpos_next, zs2_samp, hxn, hyn, interpn2_nan, rSub_none_left,
      rSub_none_right, rDiv_none_left, rAdd_none_right]
  rw [step_eq_some hb]
  refine ⟨?_, ?_, ?_, ?_, ?_⟩
  · simp [optXpos, buildStep, hxn]
  · simp [optYpos, buildStep, hyn]
  · simp [optZpos, buildStep, hzn]
  · simp [optZASL, buildStep, hASL]
  · simp [optVar1, buildStep, hvar]

/-! ## Lemmas about the smoothing filter -/

theorem reflectIdx_lt (n : ℕ) (hn : 0 < n) (i : ℤ) : reflectIdx n i < n := by
  rw [reflectIdx]
  have h2n : (0 : ℤ) < 2 * (n : ℤ) := by positivity
  have h1 : i % (2 * (n : ℤ)) < 2 * (n : ℤ) := Int.emod_lt_of_pos i h2n
  have h2 : (0 : ℤ) ≤ i % (2 * (n : ℤ)) := Int.emod_nonneg i (by omega)
  by_cases h : (i % (2 * (n : ℤ))).toNat < n
  · simp [reflectIdx, h]
  · simp only [h, if_false]
    omega

theorem uniform_filter1d_congr (n : ℕ) (hn : 0 < n) (f g : ℕ → ℚ)
    (h : ∀ k, k < n → f k = g k) (i : ℕ) :
    uniform_filter1d n f i = uniform_filter1d n g i := by
  rw [uniform_filter1d, uniform_filter1d]
  congr 1
  exact Finset.sum_congr rfl (fun j _ => h _ (reflectIdx_lt n hn _))

/-- The uniform filter reads a field only inside its domain: pointwise-equal
fields have pointwise-equal filters. -/
theorem uniform_filter_congr (nz ny nx : ℕ) (hz : 0 < nz) (hy : 0 < ny)
    (hx : 0 < nx) (f g : ℕ → ℕ → ℕ → ℚ) (h : EqOn3 nz ny nx f g) :
    EqOn3 nz ny nx (uniform_filter nz ny nx f) (uniform_filter nz ny nx g) := by
  intro z hzlt y hylt x hxlt
  rw [uniform_filter, uniform_filter]
  apply uniform_filter1d_congr nx hx _ _ _ x
  intro i hi
  apply uniform_filter1d_congr ny hy _ _ _ y
  intro j hj
  apply uniform_filter1d_congr nz hz _ _ _ z
  intro k hk
  exact h k hk j hj i hi

/-! ## Lemmas about the window bounds -/

theorem nanmin_all_none (l : List RVal) (h : ∀ v ∈ l, v = none) :
    nanmin l = none := by
  induction l with
  | nil => rfl
  | cons a l ih =>
      have ha : a = none := h a (List.mem_cons_self a l)
      have hl : nanmin l = none := ih (fun v hv => h v (List.mem_cons_of_mem a hv))
      rw [nanmin] at hl ⊢
      rw [List.foldr_cons, hl, ha]

theorem npInt_nonneg_floor {q : ℚ} (h : 0 ≤ q) : npInt q = ⌊q⌋ := by
  rw [npInt, if_neg (by exact not_lt.mpr h)]

/-! ## Claim theorems -/

set_option maxRecDepth 100000

set_option maxHeartbeats 2000000

/-- Claim C1 (ground-clipping invariant): after the clip applied at each
integration step, every entry of the recorded `zpos` (grid height) and
`zpos_heightASL` series — every time index, including all earlier indices
and the seed slice, and every parcel — is non-negative unless it is the
`nan` marker of a lost parcel, which `np.clip` (like any IEEE comparison
with 0) leaves unchanged; this holds even if the unclipped integration
produced a negative value. -/
theorem C1_ground_clipping (cfg : Config) (s : TrajState) (t0 n : ℕ)
    (hn : 1 ≤ n) (t p : ℕ) :
    nonnegOrNaN (optZpos (runFrom cfg s t0 n) t p) ∧
    nonnegOrNaN (optZASL (runFrom cfg s t0 n) t p) := by
  obtain ⟨m, rfl⟩ : ∃ m, n = m + 1 := ⟨n - 1, by omega⟩
  rw [runFrom]
  rcases hprev : runFrom cfg s t0 m with _ | sm
  · exact ⟨trivial, trivial⟩
  · rw [Option.some_bind]
    rcases hwb : windowBounds cfg sm (t0 + m) with _ | b
    · rw [step, hwb]
      exact ⟨trivial, trivial⟩
    · rw [step_eq_some hwb]
      constructor
      · simp only [optZpos, buildStep]
        exact nonnegOrNaN_rclip0 _
      · simp only [optZASL, buildStep]
        exact nonnegOrNaN_rclip0 _

/-- Witness for C1 at the concrete 10×10×5 one-parcel run. -/
theorem C1_witness :
    1 ≤ 1 ∧
    (nonnegOrNaN (optZpos (runFrom cfgA seedA 0 1) 1 0) ∧
     nonnegOrNaN (optZASL (runFrom cfgA seedA 0 1) 1 0)) :=
  ⟨le_refl 1, C1_ground_clipping cfgA seedA 0 1 (le_refl 1) 1 0⟩

/-- Claim C3 (dual fill policy): for a query point out of bounds on some
axis of the field window, the `u`, `v` and tracked-scalar interpolations
return `nan` (the parcel is lost horizontally) while the vertical-velocity
interpolation used in the height-ASL update returns exactly `0` (the parcel
is stationary in height). -/
theorem C3_dual_fill_policy (cfg : Config) (s : TrajState) (t : ℕ)
    (b : Bounds) (p : ℕ)
    (hu : outQ3 (zdim b) (ydim b) (xdim b) (coord_u cfg s t b p) = true)
    (hv : outQ3 (zdim b) (ydim b) (xdim b) (coord_v cfg s t b p) = true)
    (hw : outQ3 (zdim b) (ydim b) (xdim b) (coord_w cfg s t b p) = true)
    (hvar : outQ3 (zdim b) (ydim b) (xdim b) (coord_fast s t b p) = true) :
    u_samp cfg s t b p = none ∧ v_samp cfg s t b p = none ∧
    var1_samp cfg s t b p = none ∧ w_samp cfg s t b p = some 0 :=
  ⟨interpn3_out hu, interpn3_out hv, interpn3_out hvar, interpn3_out hw⟩

/-- Witness for C3: the parcel seeded at `x = 9.5` queries out of the
window on the x axis. -/
theorem C3_witness :
    outQ3 (zdim bA) (ydim bA) (xdim bA) (coord_u cfgA seedA 0 bA 0) = true ∧
    (u_samp cfgA seedA 0 bA 0 = none ∧ v_samp cfgA seedA 0 bA 0 = none ∧
     var1_samp cfgA seedA 0 bA 0 = none ∧
     w_samp cfgA seedA 0 bA 0 = some 0) :=
  ⟨by with_unfolding_all decide,
   C3_dual_fill_policy cfgA seedA 0 bA 0 (by with_unfolding_all decide) (by with_unfolding_all decide) (by with_unfolding_all decide)
     (by with_unfolding_all decide)⟩

/-- Claim C4 (coordinate-transform step): the grid coordinate recorded at
`t+1` is the ground-clip of
`zpos[t] + ((zpos_heightASL[t+1] - zpos_heightASL[t]) - (zs2 - zs1)) /
zpos_vert_res[t]`, where `zs1`/`zs2` are the surface height interpolated at
the time-`t` / recorded time-`t+1` horizontal positions and the vertical
spacing is interpolated at the parcel's time-`t` (global) position. -/
theorem C4_coordinate_transform (cfg : Config) (s : TrajState) (t : ℕ)
    (b : Bounds) (p : ℕ) (hb : windowBounds cfg s t = some b) :
    optZpos (step cfg s t) (t + 1) p =
      rclip0 (rAdd (s.zpos t p)
        (rDiv
          (rSub
            (rSub (zpos_heightASL_next cfg s t b p) (s.zpos_heightASL t p))
            (rSub (zs2_samp cfg s t b p) (zs1_samp cfg s t p)))
          (vres_samp cfg s t b p))) ∧
    vres_samp cfg s t b p =
      interpn3 (cfg.nz - 1) cfg.ny cfg.nx cfg.vert_resolution none
        (s.zpos t p, s.ypos t p, s.xpos t p) ∧
    zs2_samp cfg s t b p =
      interpn2 cfg.ny cfg.nx cfg.zs none
        (optYpos (step cfg s t) (t + 1) p)
        (optXpos (step cfg s t) (t + 1) p) ∧
    zs1_samp cfg s t p =
      interpn2 cfg.ny cfg.nx cfg.zs none (s.ypos t p) (s.xpos t p) := by
  refine ⟨?_, ?_, ?_, rfl⟩
  · rw [step_eq_some hb]
    simp [optZpos, buildStep, zpos_next]
  · rw [vres_samp, coord_glob_eq]
  · rw [step_eq_some hb]
    simp [zs2_samp, optYpos, optXpos, buildStep]

/-- Witness for C4 at the concrete one-parcel configuration. -/
theorem C4_witness :
    windowBounds cfgA seedA 0 = some bA ∧
    optZpos (step cfgA seedA 0) 1 0 =
      rclip0 (rAdd (seedA.zpos 0 0)
        (rDiv
          (rSub
            (rSub (zpos_heightASL_next cfgA seedA 0 bA 0)
              (seedA.zpos_heightASL 0 0))
            (rSub (zs2_samp cfgA seedA 0 bA 0) (zs1_samp cfgA seedA 0 0)))
          (vres_samp cfgA seedA 0 bA 0))) :=
  ⟨by with_unfolding_all decide, (C4_coordinate_transform cfgA seedA 0 bA 0 (by with_unfolding_all decide)).1⟩

/-- Claim C7 (scalar off-by-one alignment): the scalar recorded at output
index `t` is the smoothed windowed field of step `t` interpolated at the
parcel's time-`t` (pre-step) position, while the positions recorded at
index `t+1` are the post-step result — the scalar series is one step
behind a naive reading of the position series. -/
theorem C7_scalar_alignment (cfg : Config) (s : TrajState) (t : ℕ)
    (b : Bounds) (p : ℕ) (hb : windowBounds cfg s t = some b) :
    optVar1 (step cfg s t) t p = var1_samp cfg s t b p ∧
    var1_samp cfg s t b p =
      interpn3 (zdim b) (ydim b) (xdim b) (var1_field cfg t b) none
        (rSub (s.zpos t p) (some (b.zmin : ℚ)),
         rSub (s.ypos t p) (some (b.ymin : ℚ)),
         rSub (s.xpos t p) (some (b.xmin : ℚ))) ∧
    optXpos (step cfg s t) (t + 1) p =
      rAdd (s.xpos t p)
        (rDiv (rMul (u_samp cfg s t b p) (some cfg.time_step_length))
          (some cfg.hor_resolution)) ∧
    optYpos (step cfg s t) (t + 1) p =
      rAdd (s.ypos t p)
        (rDiv (rMul (v_samp cfg s t b p) (some cfg.time_step_length))
          (some cfg.hor_resolution)) := by
  rw [step_eq_some hb]
  exact ⟨by simp [optVar1, buildStep], rfl,
    by simp [optXpos, buildStep, xpos_next],
    by simp [optYpos, buildStep, ypos_next]⟩

/-- Witness for C7 at the concrete one-parcel configuration. -/
theorem C7_witness :
    windowBounds cfgA seedA 0 = some bA ∧
    optVar1 (step cfgA seedA 0) 0 0 = var1_samp cfgA seedA 0 bA 0 :=
  ⟨by with_unfolding_all decide, (C7_scalar_alignment cfgA seedA 0 bA 0 (by with_unfolding_all decide)).1⟩

/-- Claim C10 (implicit top-of-domain edge case): the vertical-spacing
field has only `nz - 1` levels, so a parcel whose grid height at time `t`
is a real value strictly above `nz - 2` gets a `nan` vertical spacing and
a `nan` grid height at `t + 1` — regardless of the velocity interpolations
of the step. -/
theorem C10_top_of_domain (cfg : Config) (s : TrajState) (t : ℕ)
    (b : Bounds) (p : ℕ) (q : ℚ) (hnz : 1 ≤ cfg.nz)
    (hb : windowBounds cfg s t = some b) (hzp : s.zpos t p = some q)
    (hq : (cfg.nz : ℚ) - 2 < q) :
    vres_samp cfg s t b p = none ∧ optZpos (step cfg s t) (t + 1) p = none := by
  have h1 : ((cfg.nz - 1 : ℕ) : ℚ) - 1 < q := by
    rw [Nat.cast_sub hnz]
    push_cast
    linarith
  have hout : outQ3 (cfg.nz - 1) cfg.ny cfg.nx
      (s.zpos t p, s.ypos t p, s.xpos t p) = true := by
    rw [hzp]
    simp [outQ3, outB, h1]
  have hvres : vres_samp cfg s t b p = none := by
    rw [vres_samp, coord_glob_eq]
    exact interpn3_out hout
  refine ⟨hvres, ?_⟩
  rw [step_eq_some hb]
  simp [optZpos, buildStep, zpos_next, hvres]

/-- Witness for C10: a parcel at grid height `3.5 > nz - 2 = 3` in the
5-level domain. -/
theorem C10_witness :
    windowBounds cfgA seedB 0 = some bB ∧
    (vres_samp cfgA seedB 0 bB 0 = none ∧
     optZpos (step cfgA seedB 0) 1 0 = none) :=
  ⟨by with_unfolding_all decide,
   C10_top_of_domain cfgA seedB 0 bB 0 (7 / 2) (by with_unfolding_all decide) (by with_unfolding_all decide)
     (by with_unfolding_all decide) (by norm_num [cfgA])⟩

/-- Counterexample for claim C5: for the single position `5.5` on an axis
of length 10 the script computes the upper bound `np.int(5.5 + 2) = 7`
(truncation), while the claimed formula `clamp(ceil(5.5) + 2, 0, 10) = 8`
differs. -/
theorem C5_counterexample :
    hiBound 10 [some (11 / 2)] = some 7 ∧
    specHiBound 10 [some (11 / 2)] = some 8 ∧
    hiBound 10 [some (11 / 2)] ≠ specHiBound 10 [some (11 / 2)] := by
  exact ⟨by with_unfolding_all decide, by with_unfolding_all decide, by with_unfolding_all decide⟩

/-- Claim C5 as amended: with `m`/`M` the extrema of the valid positions
(`M` non-negative) the bounds are `lo = max(floor(m) - 2, 0)` (no upper
clamp) and `hi = min(floor(M) + 2, dim)` (truncation, not ceiling; no lower
clamp); the margin is the fixed constant 2. -/
theorem C5_amended_bounds (dim : ℕ) (vals : List RVal) (m M : ℚ)
    (hmin : nanmin vals = some m) (hmax : nanmax vals = some M)
    (hM : 0 ≤ M) :
    loBound vals = some (max (⌊m⌋ - 2) 0) ∧
    hiBound dim vals = some (min (⌊M⌋ + 2) (dim : ℤ)) := by
  constructor
  · rw [loBound, hmin, Option.map_some']
    congr 1
    show (if npInt (m - 2) < 0 then (0 : ℤ) else npInt (m - 2)) =
      max (⌊m⌋ - 2) 0
    by_cases h2 : (2 : ℚ) ≤ m
    · have hf : npInt (m - 2) = ⌊m⌋ - 2 := by
        rw [npInt_nonneg_floor (by linarith)]
        rw [show (2 : ℚ) = ((2 : ℤ) : ℚ) by norm_num, Int.floor_sub_int]
      have hnn : 0 ≤ ⌊m⌋ - 2 := by
        have := Int.le_floor.mpr (show ((2 : ℤ) : ℚ) ≤ m by exact_mod_cast h2)
        omega
      rw [hf, if_neg (by omega)]
      omega
    · push_neg at h2
      have hle : npInt (m - 2) ≤ 0 := by
        rw [npInt, if_pos (by linarith)]
        exact Int.ceil_le.mpr (by push_cast; linarith)
      have hfl : ⌊m⌋ - 2 ≤ 0 := by
        have : ⌊m⌋ < 2 := Int.floor_lt.mpr (by exact_mod_cast h2)
        omega
      by_cases hv : npInt (m - 2) < 0
      · rw [if_pos hv]
        omega
      · rw [if_neg hv]
        omega
  · rw [hiBound, hmax, Option.map_some']
    congr 1
    show (if (dim : ℤ) < npInt (M + 2) then (dim : ℤ) else npInt (M + 2)) =
      min (⌊M⌋ + 2) (dim : ℤ)
    have hf : npInt (M + 2) = ⌊M⌋ + 2 := by
      rw [npInt_nonneg_floor (by linarith)]
      rw [show (2 : ℚ) = ((2 : ℤ) : ℚ) by norm_num, Int.floor_add_int]
    rw [hf]
    by_cases h : (dim : ℤ) < ⌊M⌋ + 2
    · rw [if_pos h]
      omega
    · rw [if_neg h]
      omega

/-- Witness for the amended C5 at the position list `[5.5]`, axis 10. -/
theorem C5_witness :
    nanmin [some (11 / 2 : ℚ)] = some (11 / 2) ∧
    (loBound [some (11 / 2)] = some (max (⌊(11 / 2 : ℚ)⌋ - 2) 0) ∧
     hiBound 10 [some (11 / 2)] = some (min (⌊(11 / 2 : ℚ)⌋ + 2) (10 : ℤ))) :=
  ⟨by with_unfolding_all decide,
   C5_amended_bounds 10 [some (11 / 2)] (11 / 2) (11 / 2) (by with_unfolding_all decide)
     (by with_unfolding_all decide) (by norm_num)⟩

/-- Counterexample for claim C6: with every position of the slice `nan`,
the window computation fails (`np.nanmin` is `nan` and `np.int(nan)`
raises) — it does not return the full-domain window. -/
theorem C6_counterexample :
    windowBounds cfgA seedC 0 = none ∧
    windowBounds cfgA seedC 0 ≠ some (specFullWindow cfgA.nx cfgA.ny cfgA.nz) := by
  exact ⟨by with_unfolding_all decide, by with_unfolding_all decide⟩

/-- Claim C6 as amended: if every parcel's x position at time `t` is `nan`,
the window computation yields no bounds at all (the step aborts) instead of
the full-domain window. -/
theorem C6_amended_degenerate (cfg : Config) (s : TrajState) (t : ℕ)
    (h : ∀ p, p < cfg.num_seeds → s.xpos t p = none) :
    windowBounds cfg s t = none := by
  have hmin : nanmin (sliceVals s.xpos t cfg.num_seeds) = none := by
    apply nanmin_all_none
    intro v hv
    rw [sliceVals] at hv
    simp only [List.mem_map, List.mem_range] at hv
    obtain ⟨p, hp, rfl⟩ := hv
    exact h p hp
  simp [windowBounds, loBound, hmin]

/-- Witness for the amended C6 at the all-`nan` seed slice. -/
theorem C6_witness :
    (∀ p, p < cfgA.num_seeds → seedC.xpos 0 p = none) ∧
    windowBounds cfgA seedC 0 = none :=
  ⟨by with_unfolding_all decide, C6_amended_degenerate cfgA seedC 0 (by with_unfolding_all decide)⟩

/-- Claim C8 (time-axis mapping): with the notebook's configuration
(`start_time_step = 300`, `incre = 5`, `time_steps = 50`) the in-loop fetch
for the final stepped index uses `300 + 49 * 5 = 545`, but the final-slice
scalar cell fetches `start_time_step - t = 300 - 49 = 251` — not the
simulation time index corresponding to the final `t`. -/
theorem C8_final_fetch_mismatch :
    loopFetchTime nbCfg 49 = 545 ∧
    finalFetchTime nbCfg = 251 ∧
    finalFetchTime nbCfg ≠ loopFetchTime nbCfg (nbCfg.time_steps - 1) := by
  exact ⟨by with_unfolding_all decide, by with_unfolding_all decide, by with_unfolding_all decide⟩

/-- Counterexample for claim C2: the parcel seeded at `x = 9.5` is out of
the field window at step 0 (a fill value is recorded), yet its recorded
height above sea level at the next index `t' = 1` is the finite value
`1000`, not `nan` — the vertical-velocity fill is `0`, so the height-ASL
series lags one step behind the claimed all-quantity `nan` propagation. -/
theorem C2_counterexample :
    cfgA.staggered = false ∧
    windowBounds cfgA seedA 0 = some bA ∧
    outQ3 (zdim bA) (ydim bA) (xdim bA) (coord_fast seedA 0 bA 0) = true ∧
    optZASL (runFrom cfgA seedA 0 1) 1 0 = some 1000 := by
  exact ⟨rfl, by with_unfolding_all decide, by with_unfolding_all decide,
    by with_unfolding_all decide⟩

/-- Claim C2 as amended: if (in an unstaggered run) parcel `p`'s query
point is outside the field window at step `t`, then for the rest of the run
its x, y and grid-height positions are `nan` at every index `t' > t` and
its recorded scalar is `nan` at every written index `t' ≥ t`; its height
above sea level is `nan` only from `t' = t + 2` onwards, while at
`t' = t + 1` it still equals the (clipped) time-`t` height, because the
vertical-velocity fill is `0` rather than `nan`. -/
theorem C2_amended_lost_parcel (cfg : Config) (s : TrajState) (t p : ℕ)
    (b : Bounds) (n : ℕ) (hsf : cfg.staggered = false)
    (hb : windowBounds cfg s t = some b)
    (hout : outQ3 (zdim b) (ydim b) (xdim b) (coord_fast s t b p) = true)
    (hn : 1 ≤ n) :
    (∀ k, 1 ≤ k → k ≤ n →
      optXpos (runFrom cfg s t n) (t + k) p = none ∧
      optYpos (runFrom cfg s t n) (t + k) p = none ∧
      optZpos (runFrom cfg s t n) (t + k) p = none) ∧
    (∀ k, k < n → optVar1 (runFrom cfg s t n) (t + k) p = none) ∧
    (∀ k, 2 ≤ k → k ≤ n → optZASL (runFrom cfg s t n) (t + k) p = none) ∧
    (runFrom cfg s t n = none ∨
      optZASL (runFrom cfg s t n) (t + 1) p = rclip0 (s.zpos_heightASL t p)) := by
  induction n, hn using Nat.le_induction with
  | base =>
      have hr1 : runFrom cfg s t 1 = step cfg s t := rfl
      obtain ⟨hx1, hy1, hz1, hA1, hv1⟩ := outOfWindow_step hsf hb p hout
      refine ⟨?_, ?_, ?_, ?_⟩
      · intro k hk1 hk2
        have hk : k = 1 := by omega
        subst hk
        rw [hr1]
        exact ⟨hx1, hy1, hz1⟩
      · intro k hk
        have hk0 : k = 0 := by omega
        subst hk0
        rw [hr1, Nat.add_zero]
        exact hv1
      · intro k hk2 hk1
        omega
      · right
        rw [hr1]
        exact hA1
  | succ n hn ih =>
      rw [runFrom]
      rcases hr : runFrom cfg s t n with _ | sm
      · simp [optXpos, optYpos, optZpos, optZASL, optVar1]
      · rw [hr] at ih
        rw [Option.some_bind]
        obtain ⟨ihPos, ihVar, ihASL, ihASL1⟩ := ih
        have hxm : sm.xpos (t + n) p = none := by
          simpa [optXpos] using (ihPos n hn le_rfl).1
        have hym : sm.ypos (t + n) p = none := by
          simpa [optYpos] using (ihPos n hn le_rfl).2.1
        have hzm : sm.zpos (t + n) p = none := by
          simpa [optZpos] using (ihPos n hn le_rfl).2.2
        rcases hsb : windowBounds cfg sm (t + n) with _ | bm
        · rw [step, hsb]
          simp [optXpos, optYpos, optZpos, optZASL, optVar1]
        · obtain ⟨hx2, hy2, hz2, hA2, hv2⟩ := lost_step hsb p hxm hym hzm
          refine ⟨?_, ?_, ?_, ?_⟩
          · intro k hk1 hk2
            by_cases hkn : k = n + 1
            · subst hkn
              exact ⟨hx2, hy2, hz2⟩
            · have hne : t + k ≠ (t + n) + 1 := by omega
              obtain ⟨px, py, pz, _⟩ := step_preserve hsb (t + k) p hne
              obtain ⟨ix, iy, iz⟩ := ihPos k hk1 (by omega)
              refine ⟨?_, ?_, ?_⟩
              · rw [px]
                simpa [optXpos] using ix
              · rw [py]
                simpa [optYpos] using iy
              · rw [pz]
                have iz' : sm.zpos (t + k) p = none := by
                  simpa [optZpos] using iz
                rw [iz']
                rfl
          · intro k hk
            by_cases hkn : k = n
            · subst hkn
              exact hv2
            · have hne : t + k ≠ t + n := by omega
              rw [step_preserve_var1 hsb (t + k) p hne]
              simpa [optVar1] using ihVar k (by omega)
          · intro k hk2 hk1
            by_cases hkn : k = n + 1
            · subst hkn
              exact hA2
            · have hne : t + k ≠ (t + n) + 1 := by omega
              obtain ⟨_, _, _, pA⟩ := step_preserve hsb (t + k) p hne
              rw [pA]
              have h' : sm.zpos_heightASL (t + k) p = none := by
                simpa [optZASL] using ihASL k hk2 (by omega)
              rw [h']
              rfl
          · right
            have hne : t + 1 ≠ (t + n) + 1 := by omega
            obtain ⟨_, _, _, pA⟩ := step_preserve hsb (t + 1) p hne
            rw [pA]
            rcases ihASL1 with h | h
            · exact absurd h (by simp)
            · have h' : sm.zpos_heightASL (t + 1) p =
                  rclip0 (s.zpos_heightASL t p) := by
                simpa [optZASL] using h
              rw [h', rclip0_idem]

/-- Witness for the amended C2 over one step of the concrete run. -/
theorem C2_witness :
    windowBounds cfgA seedA 0 = some bA ∧
    ((∀ k, 1 ≤ k → k ≤ 1 →
        optXpos (runFrom cfgA seedA 0 1) (0 + k) 0 = none ∧
        optYpos (runFrom cfgA seedA 0 1) (0 + k) 0 = none ∧
        optZpos (runFrom cfgA seedA 0 1) (0 + k) 0 = none) ∧
     (∀ k, k < 1 → optVar1 (runFrom cfgA seedA 0 1) (0 + k) 0 = none) ∧
     (∀ k, 2 ≤ k → k ≤ 1 → optZASL (runFrom cfgA seedA 0 1) (0 + k) 0 = none) ∧
     (runFrom cfgA seedA 0 1 = none ∨
       optZASL (runFrom cfgA seedA 0 1) (0 + 1) 0 =
         rclip0 (seedA.zpos_heightASL 0 0))) :=
  ⟨by with_unfolding_all decide,
   C2_amended_lost_parcel cfgA seedA 0 0 bA 1 rfl (by with_unfolding_all decide)
     (by with_unfolding_all decide) (le_refl 1)⟩

/-- The uniform filter of the 1×1×3 field `0, 0, 1` is `fieldG3`. -/
theorem smooth_fieldF3 :
    EqOn3 1 1 3 (uniform_filter 1 1 3 fieldF3) fieldG3 := by
  with_unfolding_all decide

/-- Claim C9 as amended: there is a 3-D field — the 1×1×3 field `0, 0, 1` —
on which applying the width-20 uniform smoothing filter twice differs from
applying it once (but not every non-constant field has this property, see
the counterexample). -/
theorem C9_amended_not_idempotent :
    ¬ EqOn3 1 1 3 (uniform_filter 1 1 3 (uniform_filter 1 1 3 fieldF3))
        (uniform_filter 1 1 3 fieldF3) := by
  intro h
  have h2 := uniform_filter_congr 1 1 3 (by norm_num) (by norm_num)
    (by norm_num) _ _ smooth_fieldF3
  have e1 := h2 0 (by norm_num) 0 (by norm_num) 0 (by norm_num)
  have e0 := h 0 (by norm_num) 0 (by norm_num) 0 (by norm_num)
  have e2 : uniform_filter 1 1 3 fieldG3 0 0 0 = 69 / 200 := by
    with_unfolding_all decide
  have e3 : uniform_filter 1 1 3 fieldF3 0 0 0 = 2 / 5 := by
    have := smooth_fieldF3 0 (by norm_num) 0 (by norm_num) 0 (by norm_num)
    simpa [fieldG3] using this
  rw [e1, e2, e3] at e0
  norm_num at e0

/-- Counterexample for the "any non-constant field suffices" part of claim
C9: on the non-constant 1×1×2 field `0, 1` one pass of the width-20
filter is already the constant `1/2` (every reflected 20-window hits each
cell 10 times), so the second pass changes nothing. -/
theorem C9_counterexample :
    EqOn3 1 1 2 (uniform_filter 1 1 2 (uniform_filter 1 1 2 fieldF2))
      (uniform_filter 1 1 2 fieldF2) ∧
    fieldF2 0 0 0 ≠ fieldF2 0 0 1 := by
  constructor
  · have h1 : EqOn3 1 1 2 (uniform_filter 1 1 2 fieldF2) fieldH2 := by
      with_unfolding_all decide
    have h2 := uniform_filter_congr 1 1 2 (by norm_num) (by norm_num)
      (by norm_num) _ _ h1
    have h3 : EqOn3 1 1 2 (uniform_filter 1 1 2 fieldH2) fieldH2 := by
      with_unfolding_all decide
    intro z hz y hy x hx
    rw [h2 z hz y hy x hx, h3 z hz y hy x hx, h1 z hz y hy x hx]
  · norm_num [fieldF2]
